import Mathlib

/-!
Verification development for the well_agent multi-agent orchestrator.

This file is a shallow embedding of the control-flow and data-model core of
the repository:

* `backend/core/workflow.py` — the LangGraph state machine
  (router → specialist → arbitrator → conditional edge), its shared
  `AgentState`, and the `should_continue` termination predicate;
* `backend/agents/arbitrator_agent.py` — post-processing of the
  arbitrator's parsed reasoning output (`next_agent` validation);
* `backend/agents/base_agent.py` — `BaseAgent.execute_tool`, the
  exception-catching wrapper around the registry;
* `backend/agents/lithology_agent.py` — the two-phase
  plan → act → observe `analyze` control flow;
* `backend/skills/registry.py` — the skill registry: loading, keyword
  matching, and tool execution.

Python dictionaries holding reasoning-call results are embedded as
structures of `Option` fields (`none` models an absent key; Python code
never distinguishes an absent key from a stored `None` in the places we
model, as both are read back through `dict.get` and truthiness tests).
Python exceptions are modeled with `Except`: an `Except.error` value is an
exception propagating to the caller.  Reasoning calls (LLM invocations) are
opaque in the source, so they enter the model as oracle functions indexed
by the visit number; the prompt/context strings fed to them influence only
the oracle and are therefore folded into it.
-/

namespace WellAgent

/-- Python `needle in hay` on lists of characters: `True` iff `needle`
occurs contiguously inside `hay` (the empty needle always occurs). -/
def containsSub (needle : List Char) : List Char → Bool
  | [] => needle.isEmpty
  | c :: t => needle.isPrefixOf (c :: t) || containsSub needle t

/-- Python `needle in hay` for strings. -/
def strContains (hay needle : String) : Bool :=
  containsSub needle.data hay.data

/-- Python `s.lower()`, character by character (ASCII letters are
lowercased; this is what the source's keywords and queries exercise). -/
def pyLower (s : String) : String := String.mk (s.data.map Char.toLower)

/-- Python `s.strip()`: whitespace removed from both ends. -/
def pyStrip (s : String) : String :=
  String.mk (((s.data.dropWhile Char.isWhitespace).reverse.dropWhile
    Char.isWhitespace).reverse)

/-- Python `s.startswith(pre)`. -/
def startsWithStr (s pre : String) : Bool := pre.data.isPrefixOf s.data

/-- Python `s.split(c)` on a single-character separator. -/
def splitOnChar (c : Char) : List Char → List (List Char)
  | [] => [[]]
  | x :: xs =>
      match splitOnChar c xs with
      | [] => [[]]
      | h :: t => if x == c then [] :: h :: t else (x :: h) :: t

/-- Python truthiness of an optional string: `None` and `""` are falsy. -/
def truthy : Option String → Bool
  | none => false
  | some s => !(s == "")

/-! ## Router (`workflow.py`, `router_node`) -/

/-- The fixed priority list hard-coded in `router_node`
(`workflow.py` lines 118–125). -/
def priorityOrder : List String :=
  ["ReservoirPropertyExpert", "MudLoggingExpert", "MineralogyExpert",
   "SaturationExpert", "ElectricalExpert", "LithologyExpert"]

/-- Python `msg.startswith("User Note:") or msg.startswith("User Follow-up:")`. -/
def isUserMsg (msg : String) : Bool :=
  startsWithStr msg "User Note:" || startsWithStr msg "User Follow-up:"

/-- Python `msg.split(":", 1)[1]`: everything after the first colon. -/
def afterFirstColon (s : String) : String :=
  String.mk ((s.data.dropWhile (fun c => c != ':')).drop 1)

/-- The backwards scan of `router_node`: first user-tagged entry of the
given (already reversed) history, with its tag stripped
(`msg.split(":", 1)[1].strip()`). -/
def findUserQuery : List String → Option String
  | [] => none
  | m :: rest =>
      if isUserMsg m then some (pyStrip (afterFirstColon m)) else findUserQuery rest

/-- The query `router_node` matches keywords against: the most recent
user-tagged entry stripped of its tag; if there is none, or the stripped
text is empty (Python `if not query`), the first history entry; the empty
string on empty history. -/
def routerQuery (history : List String) : String :=
  match history with
  | [] => ""
  | h0 :: _ =>
      match findUserQuery history.reverse with
      | some q => if q == "" then h0 else q
      | none => h0

/-- Python `keyword_map.get(agent_key, [])`. -/
def keywordsFor (kmap : List (String × List String)) (k : String) : List String :=
  (kmap.lookup k).getD []

/-- Python `any(k.lower() in query_lower for k in keywords)` for one agent key. -/
def keyMatches (kmap : List (String × List String)) (queryLower : String)
    (k : String) : Bool :=
  (keywordsFor kmap k).any (fun kw => strContains queryLower (pyLower kw))

/-- The priority loop of `router_node`: first key whose keyword list has a
case-insensitive substring match, defaulting to `"LithologyExpert"`. -/
def routerScan (kmap : List (String × List String)) (queryLower : String) :
    List String → String
  | [] => "LithologyExpert"
  | k :: rest =>
      if keyMatches kmap queryLower k then k else routerScan kmap queryLower rest

/-- The routing decision computed by `router_node` as a function of the
keyword map and the discussion history. -/
def routerTarget (kmap : List (String × List String)) (history : List String) :
    String :=
  routerScan kmap (pyLower (routerQuery history)) priorityOrder

/-! ## Arbitrator output dictionaries -/

/-- A raw `confidence` value as parsed from LLM JSON: either something
`float()` accepts, or a value on which `float()` raises. -/
inductive ConfVal where
  | num (q : ℚ)
  | bad
deriving Repr, DecidableEq

/-- The arbitrator's reasoning output as parsed by `parse_json_response`,
before the post-processing in `ArbitratorAgent.analyze`.  `none` fields
model absent keys (or JSON `null`, which all consumers treat alike). -/
structure RawArb where
  status : Option String
  next_agent : Option String
  question_for_agent : Option String
  decision : Option String
  confidence : Option ConfVal
  reasoning : Option String
deriving Repr, DecidableEq

/-- The dictionary `ArbitratorAgent.analyze` returns to the workflow. -/
structure ArbDict where
  status : Option String
  next_agent : Option String
  question_for_agent : Option String
  decision : Option String
  confidence : Option ℚ
  reasoning : Option String
  raw_output : Option String
deriving Repr, DecidableEq

/-- Keys of the non-arbitrator agents (`get_specialist_agents()` in
`agent_loader.py`): entries of the agent table whose `is_arbitrator` flag
is false. -/
def specialistKeys (agents : List (String × Bool)) : List String :=
  (agents.filter (fun p => !p.2)).map Prod.fst

/-- Embedding of `ArbitratorAgent.analyze` (`arbitrator_agent.py` lines 109–163), as a
function of the registered specialist keys and the parsed reasoning
output.  `parsed = none` models `parse_json_response` raising
`ValueError`; `rawText` is the raw LLM response recorded in the error
branch.  The success branch normalizes `NEED_MORE_INFO` to `DISCUSSION`,
nulls a truthy `next_agent` that is not a registered specialist key, and
coerces `confidence` to a float (`0.0` when absent or unparsable). -/
def arbAnalyze (specialists : List String) (parsed : Option RawArb)
    (rawText : String) : ArbDict :=
  match parsed with
  | none =>
      { status := some "ERROR", next_agent := none, question_for_agent := none,
        decision := some "解析错误", confidence := some 0,
        reasoning := some "LLM输出格式解析失败", raw_output := some rawText }
  | some r =>
      let status0 := r.status.getD "FINAL"
      let statusF : Option String :=
        if status0 == "NEED_MORE_INFO" then some "DISCUSSION" else r.status
      let nextF : Option String :=
        match r.next_agent with
        | some na =>
            if na == "" then some na
            else if specialists.contains na then some na else none
        | none => none
      let confF : ℚ :=
        match r.confidence with
        | some (ConfVal.num q) => q
        | some ConfVal.bad => 0
        | none => 0
      { status := statusF, next_agent := nextF,
        question_for_agent := r.question_for_agent,
        decision := r.decision, confidence := some confF,
        reasoning := r.reasoning, raw_output := none }

/-! ## Conditional edge (`workflow.py`, `should_continue`) -/

/-- Embedding of `should_continue` (`workflow.py` lines 279–298): `"end"` on a `FINAL`
status, `"end"` when `round_count >= 5`, `"dispatch"` when the arbitrator
output carries a truthy `next_agent`, `"end"` otherwise. -/
def should_continue (arb_output : Option ArbDict) (round_count : ℕ) : String :=
  if (match arb_output with
      | some d => d.status == some "FINAL"
      | none => false) then "end"
  else if 5 ≤ round_count then "end"
  else if (match arb_output with
      | some d => truthy d.next_agent
      | none => false) then "dispatch"
  else "end"

/-! ## Skill registry data model (`skills/registry.py`) -/

/-- A registered tool dictionary.  `skill_pack` and `directory` are the
keys `_register_tool` writes; they are `none` on a tool dictionary that
was never passed through `_register_tool`. -/
structure ToolDef where
  name : Option String
  description : String
  trigger_keywords : List String
  entry_point : Option String
  skill_pack : Option String
  directory : Option String
deriving Repr, DecidableEq

/-- A tool entry exactly as it appears in a manifest, before
`_register_tool` stamps `skill_pack`/`directory` onto it. -/
structure RawTool where
  name : Option String
  description : String
  trigger_keywords : List String
  entry_point : Option String
deriving Repr, DecidableEq

/-- The dictionary write `_register_tool` performs on a raw tool:
`tool_def['skill_pack'] = pack_name; tool_def['directory'] = skill_path`. -/
def registerToolDef (t : RawTool) (pack dir : String) : ToolDef :=
  { name := t.name, description := t.description,
    trigger_keywords := t.trigger_keywords, entry_point := t.entry_point,
    skill_pack := some pack, directory := some dir }

/-- A raw tool that is **not** registered (falsy name): its dictionary is
left untouched, so the pack/directory keys stay absent. -/
def plainToolDef (t : RawTool) : ToolDef :=
  { name := t.name, description := t.description,
    trigger_keywords := t.trigger_keywords, entry_point := t.entry_point,
    skill_pack := none, directory := none }

/-- Pack-level manifest metadata (`tools.yaml` or legacy `skill.json`). -/
structure PackMeta where
  skill_pack : Option String
  name : Option String
  description : String
  trigger_keywords : List String
  tools : Option (List RawTool)
  entry_point : Option String
deriving Repr, DecidableEq

/-- Python `metadata.get('skill_pack', metadata.get('name', skill_dir_name))`. -/
def packNameOf (m : PackMeta) (dirName : String) : String :=
  match m.skill_pack with
  | some s => s
  | none => match m.name with
    | some s => s
    | none => dirName

/-- Source `_register_tool(tool_def, ...)` registers iff `tool_def.get('name')`
is truthy. -/
def rawToolRegistered (t : RawTool) : Bool :=
  match t.name with
  | some n => !(n == "")
  | none => false

/-- The state of one tool dictionary from `metadata['tools']` after
`_load_skill` finishes: registered tools were stamped in place (the pack
dictionary aliases them), unregistered ones were left alone. -/
def toolAfterLoad (pack dir : String) (t : RawTool) : ToolDef :=
  if rawToolRegistered t then registerToolDef t pack dir else plainToolDef t

/-- The pack metadata dictionary viewed as a tool dictionary (the legacy
single-tool path passes the metadata itself to `_register_tool`, and
`list_tools_for_agent` appends it as a tool).  `directory` is always set
(`metadata['directory'] = skill_path` in `_load_skill`); `skill_pack` is
set iff the legacy registration ran with a truthy name. -/
def packSelfTool (m : PackMeta) (pn path : String) (isLegacy : Bool) : ToolDef :=
  let registered := isLegacy && m.tools.isNone && m.entry_point.isSome &&
    (match m.name with | some n => !(n == "") | none => false)
  { name := m.name, description := m.description,
    trigger_keywords := m.trigger_keywords, entry_point := m.entry_point,
    skill_pack := if registered then some pn else none,
    directory := some path }

/-- The metadata dictionary viewed as a raw tool (legacy single-tool
registration reads the same keys from it as from a tool entry). -/
def packAsRawTool (m : PackMeta) : RawTool :=
  { name := m.name, description := m.description,
    trigger_keywords := m.trigger_keywords, entry_point := m.entry_point }

/-- The value stored in `self.skill_packs` for one skill pack. -/
structure PackStored where
  meta : PackMeta
  tools : Option (List ToolDef)
  selfTool : ToolDef
  directory : String
deriving Repr, DecidableEq

/-- The two in-place mutated dictionaries of `SkillRegistry`:
`self.skill_packs` and `self.tools`, as insertion-ordered association
lists (Python dict semantics). -/
structure Registry where
  skill_packs : List (String × PackStored)
  tools : List (String × ToolDef)
deriving Repr, DecidableEq

/-- Python `d[k] = v`: replace in place if the key exists (keeping its
position, as dicts do), append otherwise. -/
def assocPut {α : Type} (m : List (String × α)) (k : String) (v : α) :
    List (String × α) :=
  if (m.lookup k).isSome
  then m.map (fun p => if p.1 == k then (k, v) else p)
  else m ++ [(k, v)]

/-! ### Reload as a sequence of primitive dictionary operations

`SkillRegistry.reload` mutates the two shared dictionaries **in place**:
it first rebinds both to empty dictionaries and then repopulates them one
`_load_skill` at a time.  To talk about what a reader racing the reload
can observe, the reload is embedded as the list of primitive dictionary
operations it performs, in program order; any prefix of that list applied
to the pre-reload registry is a state some interleaved reader can see
(CPython executes each of these dictionary operations atomically). -/

/-- One primitive dictionary operation of `reload`/`_load_skill`. -/
inductive RegOp where
  | clearPacks
  | clearTools
  | putPack (name : String) (p : PackStored)
  | putTool (name : String) (t : ToolDef)
deriving Repr, DecidableEq

/-- Apply one primitive operation. -/
def applyOp (reg : Registry) : RegOp → Registry
  | .clearPacks => { reg with skill_packs := [] }
  | .clearTools => { reg with tools := [] }
  | .putPack n p => { reg with skill_packs := assocPut reg.skill_packs n p }
  | .putTool n t => { reg with tools := assocPut reg.tools n t }

/-- Apply a list of operations in program order. -/
def applyOps (ops : List RegOp) (reg : Registry) : Registry :=
  ops.foldl applyOp reg

/-- What `_load_skill` finds in one skill directory: a parsed
`tools.yaml`, a parsed legacy `skill.json`, a manifest whose parse raises
(caught and skipped by `reload`), or no tool definition at all. -/
inductive ManifestSrc where
  | toolsYaml (m : PackMeta)
  | skillJson (m : PackMeta)
  | malformed
  | absent
deriving Repr, DecidableEq

/-- One immediate subdirectory of the skills root. -/
structure DirEntry where
  dirName : String
  manifest : ManifestSrc
deriving Repr, DecidableEq

/-- The dictionary operations of `_load_skill` on one parsed manifest.
The stored pack records the post-load state of the aliased tool
dictionaries (`_register_tool` mutates the very dictionaries the pack's
`tools` list holds). -/
def loadToolOps (skillsDir dirName : String) (m : PackMeta)
    (isLegacy : Bool) : List RegOp :=
  match m.tools with
  | some ts =>
      ts.filterMap (fun t =>
        match t.name with
        | some n =>
            if n == "" then none
            else some (RegOp.putTool n (registerToolDef t (packNameOf m dirName)
              (skillsDir ++ "/" ++ dirName)))
        | none => none)
  | none =>
      if isLegacy && m.entry_point.isSome then
        match m.name with
        | some n =>
            if n == "" then []
            else [RegOp.putTool n (registerToolDef (packAsRawTool m)
              (packNameOf m dirName) (skillsDir ++ "/" ++ dirName))]
        | none => []
      else []

/-- All operations of `_load_skill` on one parsed manifest: register the
pack, then register its tools. -/
def loadSkillMetaOps (skillsDir dirName : String) (m : PackMeta)
    (isLegacy : Bool) : List RegOp :=
  RegOp.putPack (packNameOf m dirName)
    { meta := m,
      tools := m.tools.map (fun ts => ts.map (toolAfterLoad
        (packNameOf m dirName) (skillsDir ++ "/" ++ dirName))),
      selfTool := packSelfTool m (packNameOf m dirName)
        (skillsDir ++ "/" ++ dirName) isLegacy,
      directory := skillsDir ++ "/" ++ dirName } ::
    loadToolOps skillsDir dirName m isLegacy

/-- The dictionary operations contributed by one directory entry: a
malformed manifest is logged and skipped (`reload` catches the
exception), a directory with no tool definition contributes nothing. -/
def loadSkillOps (skillsDir : String) (e : DirEntry) : List RegOp :=
  match e.manifest with
  | .toolsYaml m => loadSkillMetaOps skillsDir e.dirName m false
  | .skillJson m => loadSkillMetaOps skillsDir e.dirName m true
  | .malformed => []
  | .absent => []

/-- The full operation sequence of `SkillRegistry.reload`: clear both
dictionaries, then load each immediate subdirectory in listing order.  A
missing skills root behaves like an empty listing (the clears still
happen before the early return). -/
def reloadOps (skillsDir : String) (entries : List DirEntry) : List RegOp :=
  RegOp.clearPacks :: RegOp.clearTools ::
    (entries.map (loadSkillOps skillsDir)).flatten

/-- Embedding of `SkillRegistry.reload` run to completion on a given directory listing. -/
def reloadReg (skillsDir : String) (entries : List DirEntry)
    (reg : Registry) : Registry :=
  applyOps (reloadOps skillsDir entries) reg

/-! ### Keyword matching (`list_tools_for_agent`, `match_tools_by_keywords`) -/

/-- Embedding of `SkillRegistry.list_tools_for_agent` (`registry.py` lines 117–136):
union over the agent's pack names; a pack with a `tools` key contributes
that list, else a pack with an `entry_point` key contributes itself as a
single tool; unknown pack names are silently skipped. -/
def listToolsForAgent (packs : List (String × PackStored))
    (agentPacks : List String) : List ToolDef :=
  agentPacks.foldl (fun acc pn =>
    match packs.lookup pn with
    | some p =>
        match p.tools with
        | some ts => acc ++ ts
        | none =>
            match p.selfTool.entry_point with
            | some _ => acc ++ [p.selfTool]
            | none => acc
    | none => acc) []

/-- The matching loop of `match_tools_by_keywords`: keep a tool iff some
trigger keyword, lowercased, occurs in the lowercased question (the inner
`break` makes the loop equivalent to an existence test). -/
def matchLoop (questionLower : String) : List ToolDef → List ToolDef
  | [] => []
  | t :: rest =>
      if t.trigger_keywords.any (fun kw => strContains questionLower (pyLower kw))
      then t :: matchLoop questionLower rest
      else matchLoop questionLower rest

/-- Embedding of `SkillRegistry.match_tools_by_keywords` (`registry.py` lines
138–153).  `agentPacks = none` models the Python default `None`; a
`none` or empty pack list (both falsy) makes every registered tool a
candidate. -/
def matchToolsByKeywords (reg : Registry) (user_question : String)
    (agentPacks : Option (List String)) : List ToolDef :=
  let candidates :=
    match agentPacks with
    | some ps =>
        if ps == [] then reg.tools.map Prod.snd
        else listToolsForAgent reg.skill_packs ps
    | none => reg.tools.map Prod.snd
  matchLoop (pyLower user_question) candidates

/-! ## Tool execution (`registry.py` `execute_tool`, `base_agent.py`
`BaseAgent.execute_tool`)

`SkillRegistry.execute_tool` raises Python exceptions; they are embedded
as `Except.error` values, so `Except.error e` means "the call raises `e`
to its caller". -/

/-- The exceptions `execute_tool` can raise: `ValueError` (unknown tool,
missing entry point, unpack failure), `ImportError` (script not
resolvable, spec not loadable), or an arbitrary exception escaping the
dynamically imported capability body (re-raised by the `except` block). -/
inductive PyExc where
  | valueError (msg : String)
  | importError (msg : String)
  | execError (msg : String)
deriving Repr, DecidableEq

/-- Python `str(e)`: the exception message. -/
def pyExcStr : PyExc → String
  | .valueError m => m
  | .importError m => m
  | .execError m => m

/-- A value produced by a capability, or the `{"error": str(e)}`
dictionary `BaseAgent.execute_tool` builds from a caught exception. -/
inductive ToolValue where
  | val (tag : String)
  | errDict (msg : String)
deriving Repr, DecidableEq

/-- The outcome of dynamically importing a script and invoking its entry
function: a value, or a raised exception (this also covers
`spec_from_file_location` returning nothing and `getattr` failing, both
of which surface as exceptions from the `try` block and are re-raised). -/
inductive CallOutcome where
  | ok (v : ToolValue)
  | raises (e : PyExc)

/-- The environment of a tool execution: which script files exist, and
what running a given script's entry function does.  The keyword arguments
(including the injected `log_data`) only influence the invoked body and
are folded into the `load` oracle. -/
structure ExecEnv where
  pathExists : String → Bool
  load : String → String → CallOutcome

/-- Python `module_name, func_name = entry_point.split(':')` with the
no-colon default `execute`; two or more colons make the tuple unpacking
raise `ValueError`. -/
def parseEntryPoint (ep : String) : Except PyExc (String × String) :=
  if ep.data.contains ':' then
    match (splitOnChar ':' ep.data).map String.mk with
    | [m, f] => Except.ok (m, f)
    | _ => Except.error (PyExc.valueError "too many values to unpack (expected 2)")
  else Except.ok (ep, "execute")

/-- Python `self.tools.get(tool_name)`. -/
def lookupTool (reg : Registry) (tool_name : String) : Option ToolDef :=
  reg.tools.lookup tool_name

/-- Embedding of `SkillRegistry.execute_tool` (`registry.py` lines 155–195).  Unknown
name and missing entry point raise `ValueError`; an unresolvable script
raises `ImportError` (trying `scripts/<module>.py`, then the legacy root
`<module>.py`); an exception from the imported body is logged and
re-raised.  Every failure **raises** — the function returns a plain value
only on success. -/
def SkillRegistry.execute_tool (fs : ExecEnv) (reg : Registry)
    (tool_name : String) : Except PyExc ToolValue :=
  match lookupTool reg tool_name with
  | none => Except.error (PyExc.valueError ("Tool '" ++ tool_name ++ "' not found."))
  | some t =>
      match t.entry_point with
      | none =>
          Except.error (PyExc.valueError ("Tool '" ++ tool_name ++ "' has no entry_point."))
      | some ep =>
          match parseEntryPoint ep with
          | Except.error e => Except.error e
          | Except.ok (module_name, func_name) =>
              let dir := (t.directory).getD "None"
              let p1 := dir ++ "/scripts/" ++ module_name ++ ".py"
              let p2 := dir ++ "/" ++ module_name ++ ".py"
              if fs.pathExists p1 then
                match fs.load p1 func_name with
                | CallOutcome.ok v => Except.ok v
                | CallOutcome.raises e => Except.error e
              else if fs.pathExists p2 then
                match fs.load p2 func_name with
                | CallOutcome.ok v => Except.ok v
                | CallOutcome.raises e => Except.error e
              else
                Except.error (PyExc.importError
                  ("Script not found for tool " ++ tool_name ++ ": " ++ p2))

/-- Embedding of `BaseAgent.execute_tool` (`base_agent.py` lines 113–138): forwards to
the registry inside `try`, and converts **any** raised exception into the
result value `{"error": str(e)}`.  This function is total: no failure
escapes it. -/
def BaseAgent.execute_tool (fs : ExecEnv) (reg : Registry)
    (tool_name : String) : ToolValue :=
  match SkillRegistry.execute_tool fs reg tool_name with
  | Except.ok v => v
  | Except.error e => ToolValue.errDict (pyExcStr e)

/-! ## Lithology agent (`lithology_agent.py`, `analyze` lines 116–217)

The data-summary preamble (curve mapping, statistics) only builds the
stage-1 prompt string, which feeds the opaque reasoning call; it is
folded into the stage-1 oracle.  What is modeled is the control flow from
the stage-1 reasoning call onward: parse stage 1, then escalate / call a
tool and run stage 2 / answer directly. -/

/-- The stage-1 reasoning output as parsed by `parse_json_response`. -/
structure LithoDecision where
  action : Option String
  tool_name : Option String
  reason : Option String
  suggested_experts : Option (List String)
  lithology : Option String
  confidence : Option ℚ
  reasoning : Option String
deriving Repr, DecidableEq

/-- The stage-2 (post-tool synthesis) reasoning output as parsed. -/
structure Stage2Raw where
  lithology : Option String
  confidence : Option ℚ
  reasoning : Option String
deriving Repr, DecidableEq

/-- The dictionary `LithologyAgent.analyze` returns. -/
structure LithoResult where
  lithology : Option String
  confidence : Option ℚ
  reasoning : Option String
  status : Option String
  suggested_experts : Option (List String)
  tool_used : Option String
  tool_result : Option ToolValue
deriving Repr, DecidableEq

/-- The tool call made in the `tool_use` branch: `self.execute_tool` with
the (possibly absent) stage-1 `tool_name`.  A `None` tool name reaches
`self.tools.get(None)`, which misses, so the registry raises the
not-found `ValueError` (rendered with `None`) and the base-agent wrapper
returns the error dictionary. -/
def lithoToolCall (fs : ExecEnv) (reg : Registry) :
    Option String → ToolValue
  | some n => BaseAgent.execute_tool fs reg n
  | none => ToolValue.errDict "Tool 'None' not found."

/-- Embedding of `LithologyAgent.analyze` from the stage-1 reasoning call on
(`lithology_agent.py` lines 116–217).  `stage1 = none` / `stage2 = none`
model `parse_json_response` raising on the respective response texts
`s1text` / `s2text`.  The parameter patching before the tool call only
rewrites the keyword arguments, which are folded into the execution
oracle inside `fs`. -/
def lithoAnalyze (fs : ExecEnv) (reg : Registry)
    (stage1 : Option LithoDecision) (s1text : String)
    (stage2 : Option Stage2Raw) (s2text : String) : LithoResult :=
  match stage1 with
  | none =>
      { lithology := some "Unknown", confidence := some 0,
        reasoning := some ("Format Error in Stage 1: " ++ s1text),
        status := none, suggested_experts := none,
        tool_used := none, tool_result := none }
  | some d =>
      if d.action == some "escalate" then
        { lithology := some "Escalation Required", confidence := some 0,
          reasoning := some (d.reason.getD "Escalation requested"),
          status := some "escalate",
          suggested_experts := some (d.suggested_experts.getD []),
          tool_used := none, tool_result := none }
      else if d.action == some "tool_use" then
        let tres := lithoToolCall fs reg d.tool_name
        match stage2 with
        | none =>
            { lithology := some "Unknown", confidence := some 0,
              reasoning := some ("Format Error in Stage 2: " ++ s2text),
              status := none, suggested_experts := none,
              tool_used := none, tool_result := none }
        | some r2 =>
            { lithology := r2.lithology, confidence := r2.confidence,
              reasoning := r2.reasoning, status := none,
              suggested_experts := none,
              tool_used := d.tool_name, tool_result := some tres }
      else
        { lithology := some (d.lithology.getD "Unknown"),
          confidence := some (d.confidence.getD (1/2)),
          reasoning := some (d.reasoning.getD "No reasoning provided."),
          status := none, suggested_experts := none,
          tool_used := none, tool_result := none }

/-! ## Workflow state machine (`workflow.py`)

`AgentState` is a LangGraph `TypedDict` whose `discussion_history` field
is annotated with `operator.add`: a node returns a *partial* update, and
the engine merges it into the state, concatenating the returned history
list onto the existing one and overwriting any other returned key.  That
merge discipline is embedded as `NodeUpdate`/`applyUpdate`.  The
`input_data` field is threaded through unchanged and consumed only by
the opaque reasoning calls, so it lives inside the oracles. -/

/-- A specialist's `analyze` result as consumed by `specialist_node`
(`result.get('confidence', 0.0)`, `result.get('reasoning', str(result))`;
any further domain fields ride along opaquely). -/
structure SpecResult where
  confidence : Option ℚ
  reasoning : Option String
  extra : List (String × String)
deriving Repr, DecidableEq

/-- The shared workflow state (`AgentState`, `workflow.py` lines 37–61).
`analysis_log` records whether a finalized analysis log has been stored. -/
structure WFState where
  discussion_history : List String
  agent_results : List (String × SpecResult)
  router_decision : Option String
  arbitrator_output : Option ArbDict
  final_output : Option ArbDict
  round_count : ℕ
  analysis_log : Bool
deriving Repr, DecidableEq

/-- The partial state update a node returns.  `history_delta` is the list
the node returns under `discussion_history` (empty when it omits the
key); every other field is `some v` iff the node's returned dictionary
contains that key. -/
structure NodeUpdate where
  history_delta : List String
  agent_results : Option (List (String × SpecResult))
  router_decision : Option (Option String)
  arbitrator_output : Option (Option ArbDict)
  final_output : Option (Option ArbDict)
  round_count : Option ℕ
  analysis_log : Option Bool
deriving Repr, DecidableEq

/-- The update of a node that returns an empty dictionary. -/
def emptyUpdate : NodeUpdate :=
  { history_delta := [], agent_results := none, router_decision := none,
    arbitrator_output := none, final_output := none, round_count := none,
    analysis_log := none }

/-- The LangGraph merge of a node's partial update into the state:
`discussion_history` accumulates via `operator.add`, every other present
key overwrites. -/
def applyUpdate (st : WFState) (u : NodeUpdate) : WFState :=
  { discussion_history := st.discussion_history ++ u.history_delta,
    agent_results := u.agent_results.getD st.agent_results,
    router_decision := u.router_decision.getD st.router_decision,
    arbitrator_output := u.arbitrator_output.getD st.arbitrator_output,
    final_output := u.final_output.getD st.final_output,
    round_count := u.round_count.getD st.round_count,
    analysis_log := u.analysis_log.getD st.analysis_log }

/-- The process-wide environment of one workflow run: the agent table
(`key ↦ is_arbitrator`; a key is instantiable iff it is present), the
router keyword map, and the oracles for the opaque reasoning calls,
indexed by the loop-iteration number (`specOracle k` is what the
specialist's `analyze` returns at iteration `k`, `arbOracle k` /
`arbRawText k` the parsed/raw arbitrator reasoning output). -/
structure Env where
  keyword_map : List (String × List String)
  agents : List (String × Bool)
  specOracle : ℕ → SpecResult
  arbOracle : ℕ → Option RawArb
  arbRawText : ℕ → String
  hasLogger : Bool

/-- Source `get_agent_instance(key)` succeeds iff the key is in the loaded agent
table. -/
def hasAgent (env : Env) (key : String) : Bool :=
  (env.agents.lookup key).isSome

/-- Embedding of `router_node` (`workflow.py` lines 82–138): stores the keyword-routing
decision; touches nothing else. -/
def router_node (env : Env) (st : WFState) : NodeUpdate :=
  { emptyUpdate with
    router_decision :=
      some (some (routerTarget env.keyword_map st.discussion_history)) }

/-- The dispatch-target computation at the top of `specialist_node`: the
arbitrator's truthy `next_agent` wins, else the stored router decision
(which `state.get("router_decision", "LithologyExpert")` returns as-is,
`None` included, because the key is always present in the state). -/
def specAgentKey (st : WFState) : Option String :=
  match st.arbitrator_output with
  | some d => if truthy d.next_agent then d.next_agent else st.router_decision
  | none => st.router_decision

/-- Rendering of the dispatch key inside the error message f-string
(`None` prints as `"None"`). -/
def optKeyStr : Option String → String
  | some s => s
  | none => "None"

/-- Embedding of `specialist_node` (`workflow.py` lines 141–213).  An unknown (or
`None`) agent key appends an error line and rewrites `agent_results`
unchanged — note it does **not** clear `arbitrator_output`.  The normal
path runs the agent's `analyze` (oracle), appends the
`"{agentKey}: Conf={confidence}. {reasoning}"` line, stores the result
under the agent key, and clears `arbitrator_output`. -/
def specialist_node (env : Env) (k : ℕ) (st : WFState) : NodeUpdate :=
  match specAgentKey st with
  | none =>
      { emptyUpdate with
        history_delta := ["Error: Agent " ++ optKeyStr none ++ " not found"],
        agent_results := some st.agent_results }
  | some ak =>
      if hasAgent env ak then
        let result := env.specOracle k
        let confidence := result.confidence.getD 0
        let reasoning := result.reasoning.getD (reprStr result)
        let msg := ak ++ ": Conf=" ++ reprStr confidence ++ ". " ++ reasoning
        { emptyUpdate with
          history_delta := [msg],
          agent_results := some (assocPut st.agent_results ak result),
          arbitrator_output := some none }
      else
        { emptyUpdate with
          history_delta := ["Error: Agent " ++ ak ++ " not found"],
          agent_results := some st.agent_results }

/-- The `{"status": "ERROR", "decision": "Arbitrator not found"}`
dictionary of the missing-arbitrator branch. -/
def arbMissingDict : ArbDict :=
  { status := some "ERROR", next_agent := none, question_for_agent := none,
    decision := some "Arbitrator not found", confidence := none,
    reasoning := none, raw_output := none }

/-- Embedding of `arbitrator_node` (`workflow.py` lines 216–274).  With the arbitrator
registered: run its `analyze`, append the status line (with the dispatch
suffix when `next_agent` is truthy), store the result as
`arbitrator_output`, set `final_output` iff the status is `FINAL`
(finalizing the analysis log in that case), and increment `round_count`
by exactly 1.  Without it: set only the `ERROR` `final_output` — no
round increment, no history line, no `arbitrator_output`. -/
def arbitrator_node (env : Env) (k : ℕ) (st : WFState) : NodeUpdate :=
  if hasAgent env "Arbitrator" then
    let result := arbAnalyze (specialistKeys env.agents) (env.arbOracle k)
      (env.arbRawText k)
    let confidence := result.confidence.getD 0
    let status := result.status.getD "UNKNOWN"
    let decision := result.decision.getD ""
    let reasoning := result.reasoning.getD ""
    let question := result.question_for_agent.getD ""
    let msg0 := "Arbitrator: Status=" ++ status ++ ". Decision=" ++ decision ++
      " (Conf: " ++ reprStr confidence ++ "). " ++ reasoning
    let msg :=
      if truthy result.next_agent then
        let m1 := msg0 ++ "\n-> Dispatching to: " ++ optKeyStr result.next_agent
        if question == "" then m1 else m1 ++ " with question: " ++ question
      else msg0
    { emptyUpdate with
      arbitrator_output := some (some result),
      final_output := some (if status == "FINAL" then some result else none),
      history_delta := [msg],
      round_count := some (st.round_count + 1),
      analysis_log :=
        if status == "FINAL" && env.hasLogger then some true else none }
  else
    { emptyUpdate with final_output := some (some arbMissingDict) }

/-- One specialist-then-arbitrator iteration of the graph (the body
between two evaluations of the conditional edge). -/
def wfStep (env : Env) (k : ℕ) (st : WFState) : WFState :=
  let st1 := applyUpdate st (specialist_node env k st)
  applyUpdate st1 (arbitrator_node env k st1)

/-- The compiled graph's loop after the entry router: specialist, then
arbitrator, then the conditional edge; `"dispatch"` loops back, anything
else reaches `END`.  `fuel` bounds the recursion (the termination
theorems show the result is fuel-independent once `fuel` exceeds the
round bound); the second component counts arbitrator visits. -/
def wfLoop (env : Env) : ℕ → ℕ → WFState → WFState × ℕ
  | 0, _, st => (st, 0)
  | fuel + 1, k, st =>
      let st2 := wfStep env k st
      if should_continue st2.arbitrator_output st2.round_count = "dispatch" then
        let r := wfLoop env fuel (k + 1) st2
        (r.1, r.2 + 1)
      else (st2, 1)

/-- The round bound hard-coded as the literal `5` in `should_continue`. -/
def MAX_ROUNDS : ℕ := 5

/-- Embedding of `app.invoke(initial_state)`: run the router, then the
specialist/arbitrator loop to completion. -/
def invoke (env : Env) (st0 : WFState) : WFState :=
  (wfLoop env (MAX_ROUNDS + 1) 0 (applyUpdate st0 (router_node env st0))).1

/-- The number of arbitrator visits `invoke` performs (one per loop
iteration). -/
def invokeVisits (env : Env) (st0 : WFState) : ℕ :=
  (wfLoop env (MAX_ROUNDS + 1) 0 (applyUpdate st0 (router_node env st0))).2

/-- Embedding of `create_initial_state` (`workflow.py` lines 345–360), with the opaque
`input_data` folded away. -/
def createInitialState (user_question : String) : WFState :=
  { discussion_history :=
      if user_question == "" then [] else ["User Note: " ++ user_question],
    agent_results := [], router_decision := none, arbitrator_output := none,
    final_output := none, round_count := 0, analysis_log := false }

/-! ## Statement-level predicates used by the claim theorems -/

/-- Termination package for one environment and initial state: `invoke`
performs at most `MAX_ROUNDS + 1` arbitrator visits; its result and visit
count are independent of any fuel beyond `MAX_ROUNDS + 1` (the loop
really exits through the conditional edge); every arbitrator visit
increments `round_count` by exactly 1; no node ever decreases
`round_count`; and `should_continue` answers `"end"` whenever
`round_count` has reached `MAX_ROUNDS`. -/
def terminationSpec (env : Env) (st0 : WFState) : Prop :=
  invokeVisits env st0 ≤ MAX_ROUNDS + 1 ∧
  (∀ f, MAX_ROUNDS + 1 ≤ f →
    (wfLoop env f 0 (applyUpdate st0 (router_node env st0))).1 = invoke env st0 ∧
    (wfLoop env f 0 (applyUpdate st0 (router_node env st0))).2 = invokeVisits env st0) ∧
  (∀ k st, (applyUpdate st (arbitrator_node env k st)).round_count = st.round_count + 1) ∧
  (∀ k st,
    st.round_count ≤ (applyUpdate st (router_node env st)).round_count ∧
    st.round_count ≤ (applyUpdate st (specialist_node env k st)).round_count ∧
    st.round_count ≤ (applyUpdate st (arbitrator_node env k st)).round_count) ∧
  (∀ a rc, MAX_ROUNDS ≤ rc → should_continue a rc = "end")

/-- Structured-outcome package for one run: the final state always
carries the arbitrator's structured result, and a genuine `FINAL`
outcome (`final_output = some r` with `r.status = some "FINAL"`) is
distinguishable from a forced termination (`final_output = none` with a
non-`FINAL` `arbitrator_output` still present). -/
def outcomeSpec (env : Env) (st0 : WFState) : Prop :=
  ∃ r, (invoke env st0).arbitrator_output = some r ∧
    ((r.status = some "FINAL" ∧ (invoke env st0).final_output = some r) ∨
     (r.status ≠ some "FINAL" ∧ (invoke env st0).final_output = none))

/-- Behavioral specification of the routing decision, as the code
actually implements it: the scanned text is the most recent user-tagged
entry when one exists with nonempty stripped content, else the first
history entry (else the empty string); the decision is the first key of
the fixed priority list with a case-insensitive substring keyword match
in the scanned text, defaulting to `"LithologyExpert"`. -/
def routerSpec (kmap : List (String × List String)) (history : List String) : Prop :=
  (history = [] → routerQuery history = "") ∧
  (∀ q, findUserQuery history.reverse = some q → q ≠ "" → routerQuery history = q) ∧
  (findUserQuery history.reverse = none →
    ∀ h0 t, history = h0 :: t → routerQuery history = h0) ∧
  ((∃ pre k post, priorityOrder = pre ++ k :: post ∧
      keyMatches kmap (pyLower (routerQuery history)) k = true ∧
      (∀ k' ∈ pre, keyMatches kmap (pyLower (routerQuery history)) k' = false) ∧
      routerTarget kmap history = k) ∨
   ((∀ k ∈ priorityOrder,
       keyMatches kmap (pyLower (routerQuery history)) k = false) ∧
    routerTarget kmap history = "LithologyExpert"))

/-- The script path `execute_tool` actually loads, if any: the standard
`scripts/` location first, then the legacy pack root. -/
def resolvedScript (fs : ExecEnv) (t : ToolDef) (module_name : String) :
    Option String :=
  let dir := (t.directory).getD "None"
  let p1 := dir ++ "/scripts/" ++ module_name ++ ".py"
  let p2 := dir ++ "/" ++ module_name ++ ".py"
  if fs.pathExists p1 then some p1
  else if fs.pathExists p2 then some p2
  else none

/-- Failure-propagation specification of tool execution: the registry
call raises typed exceptions (`ValueError` on an unknown name,
`ImportError` on an unresolvable script, the re-raised body exception on
a failing capability), and the base-agent wrapper catches every one of
them and returns the `{"error": str(e)}` dictionary, returning successful
values unchanged. -/
def execSpec (fs : ExecEnv) (reg : Registry) (n : String) : Prop :=
  (lookupTool reg n = none →
    SkillRegistry.execute_tool fs reg n =
      Except.error (PyExc.valueError ("Tool '" ++ n ++ "' not found."))) ∧
  (∀ t m f, lookupTool reg n = some t →
    (t.entry_point.bind (fun ep => (parseEntryPoint ep).toOption)) = some (m, f) →
    fs.pathExists ((t.directory.getD "None") ++ "/scripts/" ++ m ++ ".py") = false →
    fs.pathExists ((t.directory.getD "None") ++ "/" ++ m ++ ".py") = false →
    SkillRegistry.execute_tool fs reg n =
      Except.error (PyExc.importError ("Script not found for tool " ++ n ++ ": " ++
        ((t.directory.getD "None") ++ "/" ++ m ++ ".py")))) ∧
  (∀ t m f p e, lookupTool reg n = some t →
    (t.entry_point.bind (fun ep => (parseEntryPoint ep).toOption)) = some (m, f) →
    resolvedScript fs t m = some p →
    fs.load p f = CallOutcome.raises e →
    SkillRegistry.execute_tool fs reg n = Except.error e) ∧
  (∀ e, SkillRegistry.execute_tool fs reg n = Except.error e →
    BaseAgent.execute_tool fs reg n = ToolValue.errDict (pyExcStr e)) ∧
  (∀ v, SkillRegistry.execute_tool fs reg n = Except.ok v →
    BaseAgent.execute_tool fs reg n = v)

/-- Recoverable-failure specification of `analyze`: unparsable reasoning
output at either stage yields a structured result with confidence `0` and
an explanatory note; a raising capability execution inside phase 2 is
folded into the result as the caught `{"error": ...}` dictionary, and
`analyze` still returns a structured result.  The arbitrator's `analyze`
likewise converts a parse failure into its typed `ERROR` result. -/
def lithoSpec (fs : ExecEnv) (reg : Registry) (s1 : Option LithoDecision)
    (s1t : String) (s2 : Option Stage2Raw) (s2t : String) : Prop :=
  (s1 = none →
    (lithoAnalyze fs reg s1 s1t s2 s2t).confidence = some 0 ∧
    (lithoAnalyze fs reg s1 s1t s2 s2t).reasoning =
      some ("Format Error in Stage 1: " ++ s1t) ∧
    (lithoAnalyze fs reg s1 s1t s2 s2t).lithology = some "Unknown") ∧
  (∀ d, s1 = some d → d.action = some "tool_use" → s2 = none →
    (lithoAnalyze fs reg s1 s1t s2 s2t).confidence = some 0 ∧
    (lithoAnalyze fs reg s1 s1t s2 s2t).reasoning =
      some ("Format Error in Stage 2: " ++ s2t)) ∧
  (∀ d n e r2, s1 = some d → d.action = some "tool_use" → d.tool_name = some n →
    s2 = some r2 → SkillRegistry.execute_tool fs reg n = Except.error e →
    (lithoAnalyze fs reg s1 s1t s2 s2t).tool_result =
      some (ToolValue.errDict (pyExcStr e)) ∧
    (lithoAnalyze fs reg s1 s1t s2 s2t).confidence = r2.confidence) ∧
  (∀ specs raw,
    (arbAnalyze specs none raw).confidence = some 0 ∧
    (arbAnalyze specs none raw).status = some "ERROR" ∧
    (arbAnalyze specs none raw).reasoning = some "LLM输出格式解析失败")

/-- Coherence of one tool descriptor with the directory listing a reload
ran against: its `skill_pack` and `directory` keys were assigned together
by the one `_load_skill` call for that directory entry. -/
def toolConsistent (skillsDir : String) (entries : List DirEntry)
    (t : ToolDef) : Prop :=
  ∃ e ∈ entries, ∃ m, (e.manifest = ManifestSrc.toolsYaml m ∨
      e.manifest = ManifestSrc.skillJson m) ∧
    t.skill_pack = some (packNameOf m e.dirName) ∧
    t.directory = some (skillsDir ++ "/" ++ e.dirName)

/-- Keyword-matching specification: with a truthy pack list, the matched
tools are exactly the tools reachable from the given packs that have a
trigger keyword whose lowercasing occurs as a substring of the lowercased
query; and the spec's concrete example behaves as stated (`"Vsh"`
matches `"请计算Vsh数值"` but not `"分析孔隙度"`). -/
def matchSpec (reg : Registry) (q : String) (ps : List String) : Prop :=
  matchToolsByKeywords reg q (some ps) =
    (listToolsForAgent reg.skill_packs ps).filter
      (fun t => t.trigger_keywords.any (fun kw => strContains (pyLower q) (pyLower kw))) ∧
  (∀ t, t ∈ matchToolsByKeywords reg q (some ps) ↔
    (t ∈ listToolsForAgent reg.skill_packs ps ∧
     ∃ kw ∈ t.trigger_keywords, strContains (pyLower q) (pyLower kw) = true)) ∧
  strContains (pyLower "请计算Vsh数值") (pyLower "Vsh") = true ∧
  strContains (pyLower "分析孔隙度") (pyLower "Vsh") = false

/-- Full keyword-matching specification, truthiness branch included: a
truthy (non-empty) pack list behaves per `matchSpec` — a filter over the
tools reachable from the given packs — but a falsy pack list (Python
`None`, or the empty list that pack-less agents pass) makes the
candidate set **all registered tools**, not the empty reachable set. -/
def matchAmendedSpec (reg : Registry) (q : String) (ps : List String) : Prop :=
  (ps ≠ [] → matchSpec reg q ps) ∧
  matchToolsByKeywords reg q (some []) =
    (reg.tools.map Prod.snd).filter
      (fun t => t.trigger_keywords.any (fun kw => strContains (pyLower q) (pyLower kw))) ∧
  matchToolsByKeywords reg q none =
    (reg.tools.map Prod.snd).filter
      (fun t => t.trigger_keywords.any (fun kw => strContains (pyLower q) (pyLower kw)))

/-! ## Concrete fixtures for witnesses and counterexamples -/

/-- A well-formed witness environment: the arbitrator plus one
specialist, with inert oracles. -/
def wEnv : Env :=
  { keyword_map := [("LithologyExpert", ["岩性"])],
    agents := [("Arbitrator", true), ("LithologyExpert", false)],
    specOracle := fun _ =>
      { confidence := some (4/5), reasoning := some "ok", extra := [] },
    arbOracle := fun _ =>
      some { status := some "FINAL", next_agent := none,
             question_for_agent := none, decision := some "done",
             confidence := some (ConfVal.num 1), reasoning := some "r" },
    arbRawText := fun _ => "raw", hasLogger := true }

/-- A parsed arbitrator output naming an unregistered `next_agent`. -/
def wBadArb : RawArb :=
  { status := some "NEED_MORE_INFO", next_agent := some "UnknownAgent",
    question_for_agent := some "q", decision := none,
    confidence := some (ConfVal.num (1/2)), reasoning := some "r" }

/-- The `calc_vsh` capability of the witness skill pack. -/
def wVshTool : ToolDef :=
  { name := some "calc_vsh", description := "shale volume",
    trigger_keywords := ["Vsh", "泥质含量"],
    entry_point := some "quantitative:calculate_vsh",
    skill_pack := some "lithology-classification",
    directory := some "SKILLS/lithology-classification" }

/-- A registry holding exactly the witness pack with `calc_vsh`. -/
def wReg : Registry :=
  { skill_packs :=
      [("lithology-classification",
        { meta :=
            { skill_pack := none, name := some "lithology-classification",
              description := "", trigger_keywords := [],
              tools := some [{ name := some "calc_vsh",
                               description := "shale volume",
                               trigger_keywords := ["Vsh", "泥质含量"],
                               entry_point := some "quantitative:calculate_vsh" }],
              entry_point := none },
          tools := some [wVshTool],
          selfTool :=
            { name := some "lithology-classification", description := "",
              trigger_keywords := [], entry_point := none,
              skill_pack := none,
              directory := some "SKILLS/lithology-classification" },
          directory := "SKILLS/lithology-classification" })],
    tools := [("calc_vsh", wVshTool)] }

/-- An execution environment with no script files at all. -/
def noFs : ExecEnv :=
  { pathExists := fun _ => false,
    load := fun _ _ => CallOutcome.raises (PyExc.execError "unreachable") }

/-- The empty registry. -/
def emptyReg : Registry := { skill_packs := [], tools := [] }

/-- Keyword map exhibiting the router fallback: a reservoir keyword. -/
def cKmap : List (String × List String) :=
  [("ReservoirPropertyExpert", ["孔隙度"])]

/-- A history with no user-tagged entry whose first line matches a
reservoir keyword. -/
def cHist : List String := ["分析一下孔隙度"]

/-- The raw manifest of the counterexample skill pack for reload. -/
def cVshMeta : PackMeta :=
  { skill_pack := none, name := some "lithology-classification",
    description := "", trigger_keywords := [],
    tools := some [{ name := some "calculate_vsh", description := "vsh",
                     trigger_keywords := ["Vsh"],
                     entry_point := some "quantitative:calculate_vsh" }],
    entry_point := none }

/-- A one-pack skills directory listing. -/
def cDisk : List DirEntry :=
  [{ dirName := "lithology-classification",
     manifest := ManifestSrc.toolsYaml cVshMeta }]

/-- The registry produced by a completed reload of `cDisk`. -/
def cPre : Registry := reloadReg "SKILLS" cDisk emptyReg

/-- The registry state visible to a reader in the middle of a second
reload of the same unchanged `cDisk`, right after the two clears (a
reachable interleaving point of CPython's in-place reload). -/
def cMid : Registry := applyOps ((reloadOps "SKILLS" cDisk).take 2) cPre

/-- The registered descriptor of `calculate_vsh` as reload stores it. -/
def cRegisteredVsh : ToolDef :=
  registerToolDef
    { name := some "calculate_vsh", description := "vsh",
      trigger_keywords := ["Vsh"],
      entry_point := some "quantitative:calculate_vsh" }
    "lithology-classification" "SKILLS/lithology-classification"

/-! ## Helper lemmas -/

theorem applyUpdate_round (st : WFState) (u : NodeUpdate) :
    (applyUpdate st u).round_count = u.round_count.getD st.round_count := rfl

theorem applyUpdate_history (st : WFState) (u : NodeUpdate) :
    (applyUpdate st u).discussion_history =
      st.discussion_history ++ u.history_delta := rfl

theorem router_node_round (env : Env) (st : WFState) :
    (router_node env st).round_count = none := rfl

theorem specialist_node_round (env : Env) (k : ℕ) (st : WFState) :
    (specialist_node env k st).round_count = none := by
  unfold specialist_node
  cases specAgentKey st with
  | none => rfl
  | some ak => cases h : hasAgent env ak <;> simp [h, emptyUpdate]

theorem arbitrator_node_round (env : Env) (k : ℕ) (st : WFState)
    (hA : hasAgent env "Arbitrator" = true) :
    (arbitrator_node env k st).round_count = some (st.round_count + 1) := by
  simp [arbitrator_node, hA]

theorem arbitrator_node_round_missing (env : Env) (k : ℕ) (st : WFState)
    (hA : hasAgent env "Arbitrator" = false) :
    (arbitrator_node env k st).round_count = none := by
  simp [arbitrator_node, hA, emptyUpdate]

theorem wfStep_round (env : Env) (k : ℕ) (st : WFState)
    (hA : hasAgent env "Arbitrator" = true) :
    (wfStep env k st).round_count = st.round_count + 1 := by
  show (applyUpdate (applyUpdate st (specialist_node env k st))
      (arbitrator_node env k (applyUpdate st (specialist_node env k st)))).round_count
    = st.round_count + 1
  rw [applyUpdate_round, arbitrator_node_round _ _ _ hA]
  simp [applyUpdate_round, specialist_node_round]

theorem should_continue_end_of_ge (a : Option ArbDict) (rc : ℕ) (h : 5 ≤ rc) :
    should_continue a rc = "end" := by
  unfold should_continue
  split_ifs with h1 h2 h3 <;> first | rfl | omega

theorem should_continue_dispatch_lt (a : Option ArbDict) (rc : ℕ)
    (h : should_continue a rc = "dispatch") : rc < 5 := by
  unfold should_continue at h
  split_ifs at h with h1 h2 h3
  · exact absurd h (by decide)
  · exact absurd h (by decide)
  · omega
  · exact absurd h (by decide)

theorem should_continue_no_next (d : ArbDict) (h : truthy d.next_agent = false)
    (rc : ℕ) : should_continue (some d) rc = "end" := by
  show (if (d.status == some "FINAL") = true then "end"
        else if 5 ≤ rc then "end"
        else if (truthy d.next_agent) = true then "dispatch" else "end") = "end"
  rw [h]
  simp

theorem wfLoop_visits_le (env : Env) (hA : hasAgent env "Arbitrator" = true) :
    ∀ fuel k st, (wfLoop env fuel k st).2 ≤ 5 - st.round_count + 1 := by
  intro fuel
  induction fuel with
  | zero => intro k st; simp [wfLoop]
  | succ a ih =>
      intro k st
      by_cases hc : should_continue (wfStep env k st).arbitrator_output
          (wfStep env k st).round_count = "dispatch"
      · have hrd := wfStep_round env k st hA
        have hlt := should_continue_dispatch_lt _ _ hc
        have hrec := ih (k + 1) (wfStep env k st)
        rw [hrd] at hlt hrec
        simp only [wfLoop, hc, if_true]
        omega
      · simp only [wfLoop, hc, if_false]
        omega

theorem wfLoop_fuel_indep (env : Env) (hA : hasAgent env "Arbitrator" = true) :
    ∀ f1 f2 k st, 5 - st.round_count < f1 → 5 - st.round_count < f2 →
      wfLoop env f1 k st = wfLoop env f2 k st := by
  intro f1
  induction f1 with
  | zero => intro f2 k st h1 h2; omega
  | succ a ih =>
      intro f2 k st h1 h2
      cases f2 with
      | zero => omega
      | succ b =>
          by_cases hc : should_continue (wfStep env k st).arbitrator_output
              (wfStep env k st).round_count = "dispatch"
          · have hrd := wfStep_round env k st hA
            have hlt := should_continue_dispatch_lt _ _ hc
            rw [hrd] at hlt
            have hrec := ih b (k + 1) (wfStep env k st)
              (by rw [hrd]; omega) (by rw [hrd]; omega)
            simp only [wfLoop, hc, if_true]
            rw [hrec]
          · simp only [wfLoop, hc, if_false]

theorem wfStep_outputs (env : Env) (k : ℕ) (st : WFState)
    (hA : hasAgent env "Arbitrator" = true) :
    (wfStep env k st).arbitrator_output =
      some (arbAnalyze (specialistKeys env.agents) (env.arbOracle k)
        (env.arbRawText k)) ∧
    (wfStep env k st).final_output =
      (if (arbAnalyze (specialistKeys env.agents) (env.arbOracle k)
            (env.arbRawText k)).status.getD "UNKNOWN" == "FINAL"
       then some (arbAnalyze (specialistKeys env.agents) (env.arbOracle k)
        (env.arbRawText k))
       else none) := by
  constructor <;> simp [wfStep, applyUpdate, arbitrator_node, hA]

theorem statusFinal_iff (r : ArbDict) :
    ((r.status.getD "UNKNOWN" == "FINAL") = true) ↔ r.status = some "FINAL" := by
  cases hs : r.status with
  | none => simp [Option.getD]
  | some s => simp [Option.getD, beq_iff_eq]

theorem wfLoop_outcome (env : Env) (hA : hasAgent env "Arbitrator" = true) :
    ∀ fuel k st, 5 - st.round_count < fuel →
      ∃ r, (wfLoop env fuel k st).1.arbitrator_output = some r ∧
        ((r.status = some "FINAL" ∧
          (wfLoop env fuel k st).1.final_output = some r) ∨
         (r.status ≠ some "FINAL" ∧
          (wfLoop env fuel k st).1.final_output = none)) := by
  intro fuel
  induction fuel with
  | zero => intro k st h; omega
  | succ a ih =>
      intro k st h
      by_cases hc : should_continue (wfStep env k st).arbitrator_output
          (wfStep env k st).round_count = "dispatch"
      · have hrd := wfStep_round env k st hA
        have hlt := should_continue_dispatch_lt _ _ hc
        rw [hrd] at hlt
        have hrec := ih (k + 1) (wfStep env k st) (by rw [hrd]; omega)
        simp only [wfLoop, hc, if_true]
        exact hrec
      · obtain ⟨ho, hf⟩ := wfStep_outputs env k st hA
        refine ⟨arbAnalyze (specialistKeys env.agents) (env.arbOracle k)
          (env.arbRawText k), ?_, ?_⟩
        · simp only [wfLoop, hc, if_false]
          exact ho
        · by_cases hst : (arbAnalyze (specialistKeys env.agents)
              (env.arbOracle k) (env.arbRawText k)).status = some "FINAL"
          · left
            refine ⟨hst, ?_⟩
            simp only [wfLoop, hc, if_false]
            rw [hf, if_pos ((statusFinal_iff _).mpr hst)]
          · right
            refine ⟨hst, ?_⟩
            simp only [wfLoop, hc, if_false]
            rw [hf, if_neg ?_]
            intro hcontra
            exact hst ((statusFinal_iff _).mp hcontra)

/-! ## Claim theorems -/

/-- C1.  For every initial state, the workflow terminates: with the
`Arbitrator` registered in the agent table (which is what makes "every
Arbitrator visit increments `round_count` by exactly 1" meaningful, and
is asserted by the data model — exactly one arbitrator descriptor
exists), `invoke` performs at most `MAX_ROUNDS + 1` arbitrator visits,
its result does not depend on the fuel bound (the loop exits through the
conditional edge), each arbitrator visit increments `round_count` by
exactly 1, no node decreases `round_count`, and `should_continue`
returns `"end"` whenever `round_count ≥ 5`. -/
theorem workflow_terminates_within_round_bound (env : Env) (st0 : WFState)
    (hA : hasAgent env "Arbitrator" = true) : terminationSpec env st0 := by
  refine ⟨?_, ?_, ?_, ?_, ?_⟩
  · have := wfLoop_visits_le env hA (MAX_ROUNDS + 1) 0
      (applyUpdate st0 (router_node env st0))
    unfold invokeVisits
    have h6 : MAX_ROUNDS = 5 := rfl
    omega
  · intro f hf
    have := wfLoop_fuel_indep env hA f (MAX_ROUNDS + 1) 0
      (applyUpdate st0 (router_node env st0))
      (by unfold MAX_ROUNDS at hf; omega) (by unfold MAX_ROUNDS; omega)
    unfold invoke invokeVisits
    rw [this]
    exact ⟨rfl, rfl⟩
  · intro k st
    rw [applyUpdate_round, arbitrator_node_round _ _ _ hA]
    rfl
  · intro k st
    refine ⟨?_, ?_, ?_⟩
    · rw [applyUpdate_round, router_node_round]; simp
    · rw [applyUpdate_round, specialist_node_round]; simp
    · rw [applyUpdate_round, arbitrator_node_round _ _ _ hA]
      simp
  · intro a rc h
    exact should_continue_end_of_ge a rc h

/-- Witness for C1: the well-formed environment `wEnv` with the
arbitrator registered and the empty initial state. -/
theorem workflow_terminates_within_round_bound_witness :
    hasAgent wEnv "Arbitrator" = true ∧
    terminationSpec wEnv (createInitialState "") :=
  ⟨rfl, workflow_terminates_within_round_bound wEnv (createInitialState "") rfl⟩

/-- C2.  A parsed arbitrator output naming a truthy `next_agent` that is
not a registered specialist key has the reference nulled by
`ArbitratorAgent.analyze` (no failure is raised — the function still
returns its structured result), and `should_continue` on that output can
only answer `"end"`, never `"dispatch"`: the workflow force-terminates
instead of dispatching to the non-existent agent. -/
theorem invalid_next_agent_nulled_then_end (specs : List String) (r : RawArb)
    (raw : String) (na : String) (h1 : r.next_agent = some na) (h2 : na ≠ "")
    (h3 : specs.contains na = false) :
    (arbAnalyze specs (some r) raw).next_agent = none ∧
    ∀ rc, should_continue (some (arbAnalyze specs (some r) raw)) rc = "end" := by
  have hnull : (arbAnalyze specs (some r) raw).next_agent = none := by
    have h3' : na ∉ specs := by simpa using h3
    simp [arbAnalyze, h1, h2, h3']
  refine ⟨hnull, fun rc => ?_⟩
  exact should_continue_no_next _ (by rw [hnull]; rfl) rc

/-- Witness for C2: `next_agent = "UnknownAgent"` against a registry
containing only `LithologyExpert`. -/
theorem invalid_next_agent_nulled_then_end_witness :
    wBadArb.next_agent = some "UnknownAgent" ∧ "UnknownAgent" ≠ "" ∧
    (["LithologyExpert"] : List String).contains "UnknownAgent" = false ∧
    ((arbAnalyze ["LithologyExpert"] (some wBadArb) "raw").next_agent = none ∧
     ∀ rc, should_continue
       (some (arbAnalyze ["LithologyExpert"] (some wBadArb) "raw")) rc = "end") :=
  ⟨rfl, by decide, by decide,
    invalid_next_agent_nulled_then_end ["LithologyExpert"] wBadArb "raw"
      "UnknownAgent" rfl (by decide) (by decide)⟩

/-- C3.  The discussion history is append-only at every node visit: each
of the three nodes' merged updates extends the history on the right, so
its length never decreases and every previously appended entry survives
unchanged at its old position (the old history is literally the prefix of
the new one). -/
theorem discussion_history_append_only (env : Env) (k : ℕ) (st : WFState) :
    ((applyUpdate st (router_node env st)).discussion_history =
        st.discussion_history ++ (router_node env st).history_delta ∧
      st.discussion_history.length ≤
        (applyUpdate st (router_node env st)).discussion_history.length ∧
      (applyUpdate st (router_node env st)).discussion_history.take
        st.discussion_history.length = st.discussion_history) ∧
    ((applyUpdate st (specialist_node env k st)).discussion_history =
        st.discussion_history ++ (specialist_node env k st).history_delta ∧
      st.discussion_history.length ≤
        (applyUpdate st (specialist_node env k st)).discussion_history.length ∧
      (applyUpdate st (specialist_node env k st)).discussion_history.take
        st.discussion_history.length = st.discussion_history) ∧
    ((applyUpdate st (arbitrator_node env k st)).discussion_history =
        st.discussion_history ++ (arbitrator_node env k st).history_delta ∧
      st.discussion_history.length ≤
        (applyUpdate st (arbitrator_node env k st)).discussion_history.length ∧
      (applyUpdate st (arbitrator_node env k st)).discussion_history.take
        st.discussion_history.length = st.discussion_history) := by
  refine ⟨⟨rfl, ?_, ?_⟩, ⟨rfl, ?_, ?_⟩, ⟨rfl, ?_, ?_⟩⟩ <;>
    first
      | (rw [applyUpdate_history, List.length_append]; omega)
      | (rw [applyUpdate_history]; exact List.take_left _ _)

/-- C4.  Every request yields a structured outcome: with the arbitrator
registered, `invoke` always returns a final state whose
`arbitrator_output` is a structured result, and a forced (non-`FINAL`)
termination — in particular the `round_count = MAX_ROUNDS`-with-`CONTINUE`
case — leaves `final_output = none`, distinguishable from a genuine
`FINAL` outcome where `final_output` holds the result with
`status = "FINAL"`.  (The embedding is a total function: no input makes
the run drop the request or crash.) -/
theorem every_run_yields_structured_outcome (env : Env) (st0 : WFState)
    (hA : hasAgent env "Arbitrator" = true) : outcomeSpec env st0 := by
  unfold outcomeSpec invoke
  exact wfLoop_outcome env hA (MAX_ROUNDS + 1) 0
    (applyUpdate st0 (router_node env st0))
    (by have h6 : MAX_ROUNDS = 5 := rfl; omega)

/-- Witness for C4: the well-formed environment `wEnv` and an initial
state carrying a user question. -/
theorem every_run_yields_structured_outcome_witness :
    hasAgent wEnv "Arbitrator" = true ∧
    outcomeSpec wEnv (createInitialState "分析岩性") :=
  ⟨rfl, every_run_yields_structured_outcome wEnv (createInitialState "分析岩性") rfl⟩

theorem matchLoop_eq_filter (ql : String) : ∀ l : List ToolDef,
    matchLoop ql l = l.filter
      (fun t => t.trigger_keywords.any (fun kw => strContains ql (pyLower kw))) := by
  intro l
  induction l with
  | nil => rfl
  | cons t rest ih =>
      by_cases h : t.trigger_keywords.any (fun kw => strContains ql (pyLower kw))
      · simp [matchLoop, h, List.filter_cons, ih]
      · simp [matchLoop, h, List.filter_cons, ih]

/-- Helper for C5: with a truthy pack list, `match_tools_by_keywords`
returns exactly the tools reachable from the given packs having some
trigger keyword `kw` with `kw.lower()` a substring of `query.lower()`;
the `"Vsh"` examples behave as the spec states. -/
theorem match_tools_by_keywords_filter (reg : Registry) (q : String)
    (ps : List String) (hps : ps ≠ []) : matchSpec reg q ps := by
  have hbeq : (ps == []) = false := by
    cases ps with
    | nil => exact absurd rfl hps
    | cons a l => rfl
  have hcand : matchToolsByKeywords reg q (some ps) =
      matchLoop (pyLower q) (listToolsForAgent reg.skill_packs ps) := by
    have hdef : matchToolsByKeywords reg q (some ps) =
        matchLoop (pyLower q)
          (if (ps == []) = true then reg.tools.map Prod.snd
           else listToolsForAgent reg.skill_packs ps) := rfl
    rw [hdef, hbeq]
    simp
  refine ⟨?_, ?_, by decide, by decide⟩
  · rw [hcand, matchLoop_eq_filter]
  · intro t
    rw [hcand, matchLoop_eq_filter]
    simp [List.mem_filter, List.any_eq_true]

/-- Counterexample for C5.  The claim says the call "returns exactly
those tools reachable from the given packs"; but `registry.py` guards the
pack list with a truthiness test (`if agent_skill_packs:`), so an
**empty** pack list — which pack-less agents really pass
(`arbitrator_agent.py` line 44, `base_agent.py` line 73) — makes every
registered tool a candidate: on the witness registry nothing is
reachable from `[]`, yet the matcher returns `calc_vsh`. -/
theorem match_empty_packs_counterexample :
    listToolsForAgent wReg.skill_packs [] = [] ∧
    matchToolsByKeywords wReg "请计算Vsh数值" (some []) = [wVshTool] ∧
    ([wVshTool] : List ToolDef) ≠ [] := by
  refine ⟨by decide, by decide, by decide⟩

/-- C5 (amended).  Capability keyword matching is case-insensitive
substring matching on the lowercased query and trigger keywords: with a
truthy (non-empty) pack list the result is exactly the filter of the
tools reachable from the given packs, and the `"Vsh"` examples behave as
stated; but with a falsy pack list (`None` or the empty list) the
candidate set is **all registered tools** rather than the empty
reachable set.  (The embedded function is pure by construction, matching
the side-effect-free source loop.) -/
theorem match_tools_by_keywords_truthiness (reg : Registry) (q : String)
    (ps : List String) : matchAmendedSpec reg q ps := by
  refine ⟨fun hps => match_tools_by_keywords_filter reg q ps hps, ?_, ?_⟩
  · exact matchLoop_eq_filter (pyLower q) (reg.tools.map Prod.snd)
  · exact matchLoop_eq_filter (pyLower q) (reg.tools.map Prod.snd)

/-- Witness for C5 (amended): the `calc_vsh` registry with its real pack
name, the truthy-branch hypothesis discharged concretely. -/
theorem match_tools_by_keywords_truthiness_witness :
    (["lithology-classification"] : List String) ≠ [] ∧
    matchSpec wReg "请计算Vsh数值" ["lithology-classification"] ∧
    matchAmendedSpec wReg "请计算Vsh数值" ["lithology-classification"] :=
  ⟨by decide,
    (match_tools_by_keywords_truthiness wReg "请计算Vsh数值"
      ["lithology-classification"]).1 (by decide),
    match_tools_by_keywords_truthiness wReg "请计算Vsh数值"
      ["lithology-classification"]⟩

theorem routerScan_first_match (kmap : List (String × List String))
    (ql : String) : ∀ l : List String,
    (∃ pre k post, l = pre ++ k :: post ∧ keyMatches kmap ql k = true ∧
      (∀ k' ∈ pre, keyMatches kmap ql k' = false) ∧
      routerScan kmap ql l = k) ∨
    ((∀ k ∈ l, keyMatches kmap ql k = false) ∧
      routerScan kmap ql l = "LithologyExpert") := by
  intro l
  induction l with
  | nil => right; exact ⟨by simp, rfl⟩
  | cons k rest ih =>
      by_cases h : keyMatches kmap ql k
      · left
        exact ⟨[], k, rest, rfl, h, by simp, by simp [routerScan, h]⟩
      · have hk : keyMatches kmap ql k = false := by
          cases hval : keyMatches kmap ql k
          · rfl
          · exact absurd hval h
        rcases ih with ⟨pre, k', post, hdec, hk', hpre, hscan⟩ | ⟨hall, hscan⟩
        · left
          refine ⟨k :: pre, k', post, by simp [hdec], hk', ?_, ?_⟩
          · intro k'' hmem
            rcases List.mem_cons.mp hmem with hEq | hmem'
            · rw [hEq]; exact hk
            · exact hpre k'' hmem'
          · simp [routerScan, h, hscan]
        · right
          refine ⟨?_, by simp [routerScan, h, hscan]⟩
          intro k'' hmem
          rcases List.mem_cons.mp hmem with hEq | hmem'
          · rw [hEq]; exact hk
          · exact hall k'' hmem'

/-- Counterexample for C6.  The claim says the router "returns the
designated default key (LithologyExpert) if no user-authored entry
exists"; but when the history has no user-tagged entry the code falls
back to matching keywords against the *first* history entry
(`query = state["discussion_history"][0]`), so with a reservoir keyword
in that entry the router returns `ReservoirPropertyExpert`, not the
default. -/
theorem router_default_claim_counterexample :
    cHist.any isUserMsg = false ∧
    routerTarget cKmap cHist = "ReservoirPropertyExpert" ∧
    ("ReservoirPropertyExpert" : String) ≠ "LithologyExpert" := by
  refine ⟨by decide, by decide, by decide⟩

/-- C6 (amended).  The Router is a deterministic function of the history
and keyword map; the scanned text is the most recent user-authored entry
when one exists with nonempty stripped content, otherwise the *first
history entry* (otherwise the empty string); the decision is the first
key of the fixed precedence list with a case-insensitive substring
keyword match in that text, and `LithologyExpert` when no key matches. -/
theorem router_decide_first_match (kmap : List (String × List String))
    (history : List String) : routerSpec kmap history := by
  refine ⟨?_, ?_, ?_, ?_⟩
  · intro h; rw [h]; rfl
  · intro q hfind hq
    cases history with
    | nil => simp [findUserQuery] at hfind
    | cons h0 t =>
        rw [List.reverse_cons] at hfind
        simp [routerQuery, hfind, hq]
  · intro hfind h0 t hhist
    subst hhist
    rw [List.reverse_cons] at hfind
    simp [routerQuery, hfind]
  · exact routerScan_first_match kmap (pyLower (routerQuery history)) priorityOrder

/-- Witness for C6 (amended): the concrete fallback history and keyword
map of the counterexample. -/
theorem router_decide_first_match_witness : routerSpec cKmap cHist :=
  router_decide_first_match cKmap cHist

/-- Counterexample for C7.  The claim says an execution failure "never
propagates past the registry boundary as a crash — the caller receives a
typed result value, not an uncaught exception".  But
`SkillRegistry.execute_tool` *raises* on every failure: on an unknown
name it raises `ValueError` to its caller (here: `Except.error`, never
an `Except.ok` result value).  The conversion to a result value happens
one layer up, in `BaseAgent.execute_tool`. -/
theorem execute_tool_raises_counterexample :
    SkillRegistry.execute_tool noFs emptyReg "calc_vsh" =
      Except.error (PyExc.valueError "Tool 'calc_vsh' not found.") ∧
    ∀ v : ToolValue,
      SkillRegistry.execute_tool noFs emptyReg "calc_vsh" ≠ Except.ok v := by
  refine ⟨rfl, ?_⟩
  intro v h
  exact Except.noConfusion h

/-- C7 (amended).  Unknown names raise `ValueError` (NotFound),
unresolvable scripts raise `ImportError` (LoadError), and a raising
capability body has its exception re-raised (ExecutionError) — all out
of `SkillRegistry.execute_tool`; `BaseAgent.execute_tool` catches every
such exception and returns the typed `{"error": str(e)}` result, so no
failure escapes the *agent* boundary as a crash. -/
theorem execute_tool_error_taxonomy (fs : ExecEnv) (reg : Registry)
    (n : String) : execSpec fs reg n := by
  refine ⟨?_, ?_, ?_, ?_, ?_⟩
  · intro h
    simp [SkillRegistry.execute_tool, h]
  · intro t m f hlook hep hp1 hp2
    cases hept : t.entry_point with
    | none => rw [hept] at hep; exact absurd hep (by simp)
    | some ep =>
        rw [hept, Option.some_bind] at hep
        cases hpe : parseEntryPoint ep with
        | error e => rw [hpe] at hep; exact absurd hep (by simp [Except.toOption])
        | ok p =>
            rw [hpe] at hep
            have hp : p = (m, f) := by
              simpa [Except.toOption] using hep
            subst hp
            simp [SkillRegistry.execute_tool, hlook, hept, hpe, hp1, hp2]
  · intro t m f p e hlook hep hres hload
    cases hept : t.entry_point with
    | none => rw [hept] at hep; exact absurd hep (by simp)
    | some ep =>
        rw [hept, Option.some_bind] at hep
        cases hpe : parseEntryPoint ep with
        | error e2 => rw [hpe] at hep; exact absurd hep (by simp [Except.toOption])
        | ok pr =>
            rw [hpe] at hep
            have hp : pr = (m, f) := by
              simpa [Except.toOption] using hep
            subst hp
            unfold resolvedScript at hres
            by_cases h1 : fs.pathExists ((t.directory.getD "None") ++ "/scripts/" ++ m ++ ".py")
            · rw [if_pos h1] at hres
              have hpp : ((t.directory.getD "None") ++ "/scripts/" ++ m ++ ".py") = p := by
                simpa using hres
              subst hpp
              simp [SkillRegistry.execute_tool, hlook, hept, hpe, h1, hload]
            · rw [if_neg h1] at hres
              by_cases h2 : fs.pathExists ((t.directory.getD "None") ++ "/" ++ m ++ ".py")
              · rw [if_pos h2] at hres
                have hpp : ((t.directory.getD "None") ++ "/" ++ m ++ ".py") = p := by
                  simpa using hres
                have h1f : fs.pathExists ((t.directory.getD "None") ++ "/scripts/" ++ m ++ ".py") = false := by
                  cases hval : fs.pathExists ((t.directory.getD "None") ++ "/scripts/" ++ m ++ ".py")
                  · rfl
                  · exact absurd hval h1
                subst hpp
                simp [SkillRegistry.execute_tool, hlook, hept, hpe, h1f, h2, hload]
              · rw [if_neg h2] at hres
                exact absurd hres (by simp)
  · intro e h
    unfold BaseAgent.execute_tool
    rw [h]
  · intro v h
    unfold BaseAgent.execute_tool
    rw [h]

/-- Witness for C7 (amended): the empty registry and empty filesystem. -/
theorem execute_tool_error_taxonomy_witness : execSpec noFs emptyReg "calc_vsh" :=
  execute_tool_error_taxonomy noFs emptyReg "calc_vsh"

/-- C8.  Unparsable reasoning output is a recoverable failure: the
lithology agent's `analyze` returns a typed result with confidence `0`
and an explanatory note when either phase's output fails to parse, and a
capability that raises inside phase 2 is caught (as the `{"error": ...}`
dictionary stored in `tool_result`) while `analyze` still returns the
phase-2 structured result; the arbitrator's `analyze` likewise converts
a parse failure into its typed `ERROR`/confidence-0 result.  Both
embedded `analyze` functions are total: no exception escapes them. -/
theorem analyze_recovers_parse_and_tool_failures (fs : ExecEnv)
    (reg : Registry) (s1 : Option LithoDecision) (s1t : String)
    (s2 : Option Stage2Raw) (s2t : String) :
    lithoSpec fs reg s1 s1t s2 s2t := by
  refine ⟨?_, ?_, ?_, ?_⟩
  · intro h
    subst h
    exact ⟨rfl, rfl, rfl⟩
  · intro d hs1 hact hs2
    subst hs1
    subst hs2
    have h1 : (d.action == some "escalate") = false := by rw [hact]; rfl
    have h2 : (d.action == some "tool_use") = true := by rw [hact]; rfl
    refine ⟨?_, ?_⟩ <;> simp [lithoAnalyze, h1, h2]
  · intro d n e r2 hs1 hact htn hs2 hreg
    subst hs1
    subst hs2
    have h1 : (d.action == some "escalate") = false := by rw [hact]; rfl
    have h2 : (d.action == some "tool_use") = true := by rw [hact]; rfl
    have htool : lithoToolCall fs reg d.tool_name =
        ToolValue.errDict (pyExcStr e) := by
      rw [htn]
      show BaseAgent.execute_tool fs reg n = ToolValue.errDict (pyExcStr e)
      unfold BaseAgent.execute_tool
      rw [hreg]
    refine ⟨?_, ?_⟩ <;> simp [lithoAnalyze, h1, h2, htool]
  · intro specs raw
    exact ⟨rfl, rfl, rfl⟩

/-- Witness for C8: both stages failing to parse against the empty
registry and filesystem. -/
theorem analyze_recovers_parse_and_tool_failures_witness :
    lithoSpec noFs emptyReg none "not json" none "still not json" :=
  analyze_recovers_parse_and_tool_failures noFs emptyReg none "not json"
    none "still not json"

theorem assocPut_mem {α : Type} (m : List (String × α)) (k : String) (v : α)
    (x : String × α) (h : x ∈ assocPut m k v) : x = (k, v) ∨ x ∈ m := by
  unfold assocPut at h
  split_ifs at h with hlk
  · rcases List.mem_map.mp h with ⟨p, hp, hx⟩
    by_cases hk : (p.1 == k) = true
    · rw [if_pos hk] at hx
      left; exact hx.symm
    · rw [if_neg hk] at hx
      right; rw [← hx]; exact hp
  · rcases List.mem_append.mp h with h1 | h2
    · right; exact h1
    · left; simpa using h2

theorem applyOps_tools_origin : ∀ (ops : List RegOp) (reg : Registry)
    (nt : String × ToolDef), nt ∈ (applyOps ops reg).tools →
    (RegOp.putTool nt.1 nt.2 ∈ ops) ∨ nt ∈ reg.tools := by
  intro ops
  induction ops with
  | nil => intro reg nt h; right; exact h
  | cons o rest ih =>
      intro reg nt h
      have h' : nt ∈ (applyOps rest (applyOp reg o)).tools := by
        simpa [applyOps, List.foldl_cons] using h
      rcases ih (applyOp reg o) nt h' with hop | hmem
      · left; exact List.mem_cons_of_mem o hop
      · cases o with
        | clearPacks => right; exact hmem
        | clearTools => exact absurd hmem (by simp [applyOp])
        | putPack n p => right; exact hmem
        | putTool n t =>
            rcases assocPut_mem reg.tools n t nt (by simpa [applyOp] using hmem)
              with hEq | hmem2
            · left
              rw [hEq]
              exact List.mem_cons_self _ _
            · right; exact hmem2

theorem loadToolOps_putTool_consistent (sd dn : String) (m : PackMeta)
    (leg : Bool) (n : String) (t : ToolDef)
    (h : RegOp.putTool n t ∈ loadToolOps sd dn m leg) :
    t.skill_pack = some (packNameOf m dn) ∧
    t.directory = some (sd ++ "/" ++ dn) := by
  unfold loadToolOps at h
  cases hmt : m.tools with
  | some ts =>
      simp only [hmt] at h
      rcases List.mem_filterMap.mp h with ⟨raw, hraw, hmatch⟩
      cases hname : raw.name with
      | none => simp only [hname] at hmatch; exact Option.noConfusion hmatch
      | some n0 =>
          simp only [hname] at hmatch
          by_cases hz : (n0 == "") = true
          · rw [if_pos hz] at hmatch; exact Option.noConfusion hmatch
          · rw [if_neg hz] at hmatch
            have heq := Option.some.inj hmatch
            injection heq with hn ht
            rw [← ht]
            exact ⟨rfl, rfl⟩
  | none =>
      simp only [hmt] at h
      split_ifs at h with hcond
      · cases hname : m.name with
        | none => simp only [hname] at h; exact absurd h (List.not_mem_nil _)
        | some n0 =>
            simp only [hname] at h
            by_cases hz : (n0 == "") = true
            · rw [if_pos hz] at h; exact absurd h (List.not_mem_nil _)
            · rw [if_neg hz] at h
              have heq := List.mem_singleton.mp h
              injection heq with hn ht
              rw [ht]
              exact ⟨rfl, rfl⟩
      · exact absurd h (List.not_mem_nil _)

theorem reloadOps_putTool_consistent (sd : String) (entries : List DirEntry)
    (n : String) (t : ToolDef)
    (h : RegOp.putTool n t ∈ reloadOps sd entries) :
    toolConsistent sd entries t := by
  unfold reloadOps at h
  rcases List.mem_cons.mp h with h1 | h
  · exact absurd h1 (by simp)
  rcases List.mem_cons.mp h with h1 | h
  · exact absurd h1 (by simp)
  rcases List.mem_flatten.mp h with ⟨l, hl, hop⟩
  rcases List.mem_map.mp hl with ⟨e, he, hle⟩
  subst hle
  unfold loadSkillOps at hop
  cases hman : e.manifest with
  | toolsYaml m =>
      rw [hman] at hop
      rcases List.mem_cons.mp hop with h1 | hop
      · exact absurd h1 (by simp)
      · obtain ⟨hsp, hdir⟩ := loadToolOps_putTool_consistent sd e.dirName m false n t hop
        exact ⟨e, he, m, Or.inl hman, hsp, hdir⟩
  | skillJson m =>
      rw [hman] at hop
      rcases List.mem_cons.mp hop with h1 | hop
      · exact absurd h1 (by simp)
      · obtain ⟨hsp, hdir⟩ := loadToolOps_putTool_consistent sd e.dirName m true n t hop
        exact ⟨e, he, m, Or.inr hman, hsp, hdir⟩
  | malformed => rw [hman] at hop; exact absurd hop (List.not_mem_nil _)
  | absent => rw [hman] at hop; exact absurd hop (List.not_mem_nil _)

/-- Counterexample for C9.  `reload()` clears and repopulates the shared
dictionaries in place, so it is *not* atomic for concurrent readers: on
an unchanged one-pack skills directory, the pre-reload and post-reload
indexes coincide and contain `calculate_vsh`, yet a reader at the
interleaving point right after the clears (`cMid`, a reachable
intermediate state of the operation sequence) sees an empty tool index —
neither the fully-pre-reload nor the fully-post-reload index — and its
`match` call returns nothing where both the pre- and post-reload
registries return the tool. -/
theorem reload_not_atomic_counterexample :
    reloadReg "SKILLS" cDisk cPre = cPre ∧
    cMid.tools = [] ∧
    cPre.tools ≠ [] ∧
    matchToolsByKeywords cMid "请计算Vsh" none = [] ∧
    matchToolsByKeywords cPre "请计算Vsh" none ≠ [] := by
  refine ⟨by decide, by decide, by decide, by decide, by decide⟩

/-- C9 (amended).  A reader racing `reload()` may observe a partially
rebuilt index (the clears land before any repopulation), but descriptor
coherence still holds at every interleaving point: any tool entry visible
after any prefix of the reload's dictionary operations is either a
carried-over pre-reload entry or a descriptor whose `skill_pack` and
`directory` were assigned together by the same `_load_skill` call — so a
returned descriptor's directory never belongs to a different skill pack
than its declared owner. -/
theorem reload_reader_descriptor_coherent (sd : String)
    (entries : List DirEntry) (reg : Registry) (j : ℕ) (nt : String × ToolDef)
    (h : nt ∈ (applyOps ((reloadOps sd entries).take j) reg).tools) :
    toolConsistent sd entries nt.2 ∨ nt ∈ reg.tools := by
  rcases applyOps_tools_origin ((reloadOps sd entries).take j) reg nt h
    with hop | hmem
  · exact Or.inl (reloadOps_putTool_consistent sd entries nt.1 nt.2
      (List.take_subset _ _ hop))
  · exact Or.inr hmem

/-- Witness for C9 (amended): the full reload prefix over the concrete
one-pack directory; the registered `calculate_vsh` descriptor is
coherent. -/
theorem reload_reader_descriptor_coherent_witness :
    ("calculate_vsh", cRegisteredVsh) ∈
      (applyOps ((reloadOps "SKILLS" cDisk).take 4) cPre).tools ∧
    (toolConsistent "SKILLS" cDisk cRegisteredVsh ∨
      ("calculate_vsh", cRegisteredVsh) ∈ cPre.tools) :=
  ⟨by decide,
    reload_reader_descriptor_coherent "SKILLS" cDisk cPre 4
      ("calculate_vsh", cRegisteredVsh) (by decide)⟩

/-- C10.  `reload()` is idempotent over an unchanged skills directory:
its result does not depend on the prior registry contents at all (it
clears both dictionaries before loading), so a second reload over the
same directory listing produces an index equal — in particular set-equal
— to the first: same capability names, same descriptors, same
trigger-keyword sets, same skill packs. -/
theorem reload_idempotent (sd : String) (entries : List DirEntry)
    (reg reg' : Registry) :
    reloadReg sd entries reg = reloadReg sd entries reg' ∧
    reloadReg sd entries (reloadReg sd entries reg) = reloadReg sd entries reg ∧
    (reloadReg sd entries (reloadReg sd entries reg)).tools.map Prod.fst =
      (reloadReg sd entries reg).tools.map Prod.fst ∧
    (reloadReg sd entries (reloadReg sd entries reg)).tools.map
        (fun p => p.2.trigger_keywords) =
      (reloadReg sd entries reg).tools.map (fun p => p.2.trigger_keywords) ∧
    (reloadReg sd entries (reloadReg sd entries reg)).skill_packs =
      (reloadReg sd entries reg).skill_packs := by
  have hindep : ∀ r r' : Registry,
      reloadReg sd entries r = reloadReg sd entries r' := by
    intro r r'
    rfl
  refine ⟨hindep reg reg', hindep (reloadReg sd entries reg) reg, ?_, ?_, ?_⟩ <;>
    rw [hindep (reloadReg sd entries reg) reg]

end WellAgent
